import Mathlib

/-!
Shallow embedding of `gcloudorm/property.py` (the typed-attribute layer of
the Tagtoo/gcloud-python-orm repository, Python 2).

Python values that can flow through the property layer are modelled by the
inductive `PyVal`; the per-record entity container (a string-keyed dict of
base values) by `Entity`; external library calls (`zlib`, `cPickle`, `json`,
`str.decode`) by the explicit environment structure `Ext`.  Every descriptor
operation of the source (`validate`, `_validate`, `to_base_type`,
`from_base_type`, `__get__`, `__set__`, `__delete__`, `_prepare_for_put`,
class constructors) is translated to a Lean function over these types,
with Python exceptions modelled as `Except Err`.
-/

set_option autoImplicit false

namespace GCloudOrm

/-- Exceptions raised inside `property.py`.  The source raises bare
`AssertionError`s (and propagates library errors); each constructor below
records which check or library call failed. -/
inductive Err where
  /-- `assert self._choices is None or value in self._choices` (validate, line 49). -/
  | invalidChoice
  /-- `assert not (self._required and value is not None)` (validate, line 50). -/
  | requiredAssert
  /-- an `isinstance` assertion inside a type-specific `_validate`. -/
  | typeAssert
  /-- `assert isinstance(value, (tuple, list))` in `__set__` for a repeated property. -/
  | repeatedAssert
  /-- a construction-time assertion (`BlobProperty.__init__`, `DateTimeProperty.__init__`). -/
  | configAssert
  /-- `UnicodeDecodeError` from `value.decode('utf-8')` / `unicode(value, 'utf-8')`. -/
  | decodeError
  /-- `cPickle.loads` failure. -/
  | pickleError
  /-- `json.dumps` / `json.loads` failure. -/
  | jsonError
  /-- `AttributeError` (e.g. `value.z_val` on a non-wrapper, `value.date()` on a non-datetime). -/
  | attributeError
  /-- `TypeError` (e.g. iterating a non-sequence, `zlib.compress` / `pickle.loads` on a non-string). -/
  | typeError
  /-- `KeyError` from `instance[self._name]`. -/
  | keyError
  deriving DecidableEq, Repr

/-- `datetime.datetime` value (naive, as produced by `datetime.datetime.utcnow()`). -/
structure PyDateTime where
  year : Nat
  month : Nat
  day : Nat
  hour : Nat
  minute : Nat
  second : Nat
  microsecond : Nat
  deriving DecidableEq, Repr

/-- `datetime.date` value. -/
structure PyDate where
  year : Nat
  month : Nat
  day : Nat
  deriving DecidableEq, Repr

/-- `datetime.time` value. -/
structure PyTime where
  hour : Nat
  minute : Nat
  second : Nat
  microsecond : Nat
  deriving DecidableEq, Repr

/-- `datetime_value.date()`. -/
def PyDateTime.toDate (d : PyDateTime) : PyDate :=
  ⟨d.year, d.month, d.day⟩

/-- `datetime_value.time()`. -/
def PyDateTime.toTime (d : PyDateTime) : PyTime :=
  ⟨d.hour, d.minute, d.second, d.microsecond⟩

/-- The universe of Python 2 values that can flow through the property layer:
`None`, booleans, integral numbers (`int`/`long` merged), floats (modelled as
rationals; no float arithmetic occurs in the source), byte strings (`str`),
text strings (`unicode`), the three `datetime` types, sequences (`list`, also
standing in for `tuple`), and the storage driver's compressed-value wrapper
(an object carrying a `z_val` payload, consumed by `BlobProperty._from_base_type`). -/
inductive PyVal where
  | none
  | bool (b : Bool)
  | int (n : Int)
  | float (q : ℚ)
  | str (bs : List Nat)
  | unicode (s : String)
  | datetime (d : PyDateTime)
  | date (d : PyDate)
  | time (t : PyTime)
  | list (xs : List PyVal)
  | zwrapped (bs : List Nat)

/-- `value is None`. -/
def PyVal.isNone : PyVal → Bool
  | .none => true
  | _ => false

/-- Python 2 truthiness, used by `self._default or []` in `__get__`.
`datetime.time(0, 0)` is falsy in Python 2; `date`/`datetime` objects are
always truthy. -/
def PyVal.truthy : PyVal → Bool
  | .none => false
  | .bool b => b
  | .int n => n != 0
  | .float q => q != 0
  | .str bs => bs.length != 0
  | .unicode s => s.length != 0
  | .list xs => xs.length != 0
  | .time t => t != ⟨0, 0, 0, 0⟩
  | .datetime _ => true
  | .date _ => true
  | .zwrapped _ => true

/-- Bytes-against-text comparison: Python 2 `str == unicode` succeeds exactly
when the bytes are the ASCII encoding of the text. -/
def asciiEq (bs : List Nat) (s : String) : Bool :=
  bs.all (· < 128) && bs == s.toList.map Char.toNat

mutual

/-- Python 2 `==`, as used by `value in self._choices`: numeric values compare
across `bool`/`int`/`float`, `str` and `unicode` compare via ASCII decoding,
everything else compares structurally (distinct types are unequal). -/
def pyEq : PyVal → PyVal → Bool
  | .none, .none => true
  | .bool a, .bool b => a == b
  | .bool a, .int n => (if a then (1 : Int) else 0) == n
  | .int n, .bool a => n == (if a then (1 : Int) else 0)
  | .bool a, .float q => (if a then (1 : ℚ) else 0) == q
  | .float q, .bool a => q == (if a then (1 : ℚ) else 0)
  | .int n, .int m => n == m
  | .int n, .float q => (n : ℚ) == q
  | .float q, .int n => q == (n : ℚ)
  | .float a, .float b => a == b
  | .str a, .str b => a == b
  | .unicode a, .unicode b => a == b
  | .str a, .unicode b => asciiEq a b
  | .unicode a, .str b => asciiEq b a
  | .datetime a, .datetime b => a == b
  | .date a, .date b => a == b
  | .time a, .time b => a == b
  | .list as, .list bs => pyEqList as bs
  | .zwrapped a, .zwrapped b => a == b
  | _, _ => false

/-- Elementwise Python `==` on sequences. -/
def pyEqList : List PyVal → List PyVal → Bool
  | [], [] => true
  | a :: as, b :: bs => pyEq a b && pyEqList as bs
  | _, _ => false

end

/-- External collaborators of `property.py`: the `zlib`, `cPickle` and `json`
libraries and Python's UTF-8 codec.  The source treats all of them as opaque;
theorems quantify over this environment, and concrete witnesses instantiate it
with `ext0` below.  Codec failures surface as fixed error kinds
(`decodeError`, `pickleError`, `jsonError`), matching the exception types the
libraries raise. -/
structure Ext where
  zlibCompress : List Nat → List Nat
  zlibDecompress : List Nat → List Nat
  utf8Decode : List Nat → Option String
  pickleDumps : PyVal → List Nat
  pickleLoads : List Nat → Option PyVal
  jsonDumps : PyVal → Option (List Nat)
  jsonLoads : List Nat → Option PyVal

/-- Lift an optional library result into `Except`, tagging the failure. -/
def liftO {α : Type} (o : Option α) (e : Err) : Except Err α :=
  match o with
  | some a => .ok a
  | Option.none => .error e

/-- The per-record entity container: a dict from storage names to base values.
`property.py` stores a descriptor's value under `self._name`, which is `None`
until `_fix_up` runs, so keys are `Option String`. -/
abbrev Entity := List (Option String × PyVal)

/-- `instance[name]` / `name in instance` (dict lookup). -/
def Entity.lookup : Entity → Option String → Option PyVal
  | [], _ => Option.none
  | (k, v) :: rest, key => if k = key then some v else Entity.lookup rest key

/-- Remove every binding for `key` (helper for dict update and `pop`). -/
def Entity.eraseKey (e : Entity) (key : Option String) : Entity :=
  e.filter (fun kv => !(kv.fst == key))

/-- `instance[name] = v` (dict update: the new binding replaces any old one). -/
def Entity.insert (e : Entity) (key : Option String) (v : PyVal) : Entity :=
  (key, v) :: Entity.eraseKey e key

/-- The concrete descriptor classes of `property.py`.  The class determines
which overrides of `_validate`, `_to_base_type`, `_from_base_type`,
`_prepare_for_put` and `_now` are in effect. -/
inductive PKind where
  | base
  | boolean
  | integer
  | float
  | blob
  | text
  | string
  | pickle
  | json
  | datetime
  | date
  | time
  deriving DecidableEq, Repr

/-- Descriptor state after `__init__`: the fields assigned by
`Property.__init__` plus the subclass-specific fields (`_compressed` from
`BlobProperty`, `_auto_now_add`/`_auto_now` from `DateTimeProperty`,
`_schema` from `JsonProperty`); `kind` records the concrete class. -/
structure Property where
  kind : PKind
  name : Option String
  indexed : Bool
  repeated : Bool
  required : Bool
  default : PyVal
  choices : Option (List PyVal)
  validator : Option (PyVal → PyVal)
  compressed : Bool
  autoNowAdd : Bool
  autoNow : Bool
  schema : PyVal

/-- `Property.__init__(self, name=None, indexed=True, repeated=False,
required=False, default=None, choices=None, validator=None)`.  The
subclass-only fields take their quiescent values. -/
def Property.init (kind : PKind) (name : Option String) (indexed repeated required : Bool)
    (default : PyVal) (choices : Option (List PyVal))
    (validator : Option (PyVal → PyVal)) : Property :=
  { kind := kind, name := name, indexed := indexed, repeated := repeated,
    required := required, default := default, choices := choices,
    validator := validator, compressed := false, autoNowAdd := false,
    autoNow := false, schema := PyVal.none }

/-- `BlobProperty.__init__(self, name=None, compressed=False, **kwargs)`:
`kwargs.pop('indexed', None)` discards any `indexed` argument (`indexedKw`
here), the superclass is called with `indexed=False`, `_compressed` is set,
and then `assert not (compressed and self._indexed)` runs.  `kind` is a
parameter because `PickleProperty` and `JsonProperty` inherit this
constructor unchanged. -/
def BlobProperty.initK (kind : PKind) (name : Option String) (compressed : Bool)
    (indexedKw : Option Bool) (repeated required : Bool) (default : PyVal)
    (choices : Option (List PyVal)) (validator : Option (PyVal → PyVal)) :
    Except Err Property :=
  let _ := indexedKw
  let p := Property.init kind name false repeated required default choices validator
  let p := { p with compressed := compressed }
  if compressed && p.indexed then .error Err.configAssert else .ok p

/-- `TextProperty.__init__(self, name=None, indexed=False, **kwargs)` forwards
`indexed` to `BlobProperty.__init__`, where it lands in `**kwargs` and is
popped.  `kind` is a parameter because `StringProperty` reuses this
constructor. -/
def TextProperty.initK (kind : PKind) (name : Option String) (indexed compressed : Bool)
    (repeated required : Bool) (default : PyVal) (choices : Option (List PyVal))
    (validator : Option (PyVal → PyVal)) : Except Err Property :=
  BlobProperty.initK kind name compressed (some indexed) repeated required default
    choices validator

/-- `StringProperty.__init__(self, name=None, indexed=True, **kwargs)`; the
Python default for `indexed` is `True`. -/
def StringProperty.init (name : Option String) (indexed compressed : Bool)
    (repeated required : Bool) (default : PyVal) (choices : Option (List PyVal))
    (validator : Option (PyVal → PyVal)) : Except Err Property :=
  TextProperty.initK PKind.string name indexed compressed repeated required default
    choices validator

/-- `JsonProperty.__init__(self, name=None, schema=None, **kwargs)`: defers to
`BlobProperty.__init__` and then stores `_schema`. -/
def JsonProperty.init (name : Option String) (schema : PyVal) (compressed : Bool)
    (indexedKw : Option Bool) (repeated required : Bool) (default : PyVal)
    (choices : Option (List PyVal)) (validator : Option (PyVal → PyVal)) :
    Except Err Property :=
  match BlobProperty.initK PKind.json name compressed indexedKw repeated required
      default choices validator with
  | .error e => .error e
  | .ok p => .ok { p with schema := schema }

/-- `DateTimeProperty.__init__(self, name=None, auto_now_add=False,
auto_now=False, **kwargs)`: `assert not ((auto_now_add or auto_now) and
kwargs.get("repeated", False))`, then the superclass runs (`indexed` passes
through normally here) and the two flags are stored.  `kind` is a parameter
because `DateProperty` and `TimeProperty` inherit this constructor. -/
def DateTimeProperty.initK (kind : PKind) (name : Option String)
    (autoNowAdd autoNow : Bool) (indexed repeated required : Bool) (default : PyVal)
    (choices : Option (List PyVal)) (validator : Option (PyVal → PyVal)) :
    Except Err Property :=
  if (autoNowAdd || autoNow) && repeated then .error Err.configAssert
  else
    .ok { Property.init kind name indexed repeated required default choices validator with
          autoNowAdd := autoNowAdd, autoNow := autoNow }

/-- `isinstance(value, (int, long))`: Python 2 `bool` is a subclass of `int`. -/
def isIntLike : PyVal → Bool
  | .int _ => true
  | .bool _ => true
  | _ => false

/-- `isinstance(value, (int, long, float))`. -/
def isNumLike : PyVal → Bool
  | .int _ => true
  | .bool _ => true
  | .float _ => true
  | _ => false

/-- Python `int(value)` on an int-like value. -/
def intOf : PyVal → PyVal
  | .bool b => .int (if b then 1 else 0)
  | v => v

/-- Python `float(value)` on a numeric value. -/
def floatOf : PyVal → PyVal
  | .int n => .float (n : ℚ)
  | .bool b => .float (if b then 1 else 0)
  | v => v

/-- The type-specific `_validate` override of each class.  Note that
`DateProperty._validate` checks `isinstance(value, datetime.date)` and
`datetime.datetime` is a subclass of `datetime.date`, so datetime values pass
there; `PickleProperty._validate` and `JsonProperty._validate` are identity. -/
def pvalidateInner (p : Property) (ext : Ext) (v : PyVal) : Except Err PyVal :=
  match p.kind with
  | .base => .ok v
  | .boolean =>
    match v with
    | .bool _ => .ok v
    | _ => .error Err.typeAssert
  | .integer => if isIntLike v then .ok (intOf v) else .error Err.typeAssert
  | .float => if isNumLike v then .ok (floatOf v) else .error Err.typeAssert
  | .blob =>
    match v with
    | .str _ => .ok v
    | _ => .error Err.typeAssert
  | .text | .string =>
    match v with
    | .str bs =>
      match ext.utf8Decode bs with
      | some s => .ok (.unicode s)
      | Option.none => .error Err.decodeError
    | .unicode _ => .ok v
    | _ => .error Err.typeAssert
  | .pickle | .json => .ok v
  | .datetime =>
    match v with
    | .datetime _ => .ok v
    | _ => .error Err.typeAssert
  | .date =>
    match v with
    | .date _ => .ok v
    | .datetime _ => .ok v
    | _ => .error Err.typeAssert
  | .time =>
    match v with
    | .time _ => .ok v
    | _ => .error Err.typeAssert

/-- `self._choices is None or value in self._choices`. -/
def choicesOk (p : Property) (v : PyVal) : Bool :=
  match p.choices with
  | Option.none => true
  | some cs => cs.any (pyEq v)

/-- `Property.validate` exactly as written in the source (lines 48-58):
the choices assertion, then `assert not (self._required and value is not
None)` (the check is inverted in the source: it fires on non-null values of a
required property), then the null short-circuit, then the type-specific
`_validate` whose return value is discarded, and finally the custom validator,
whose return value supersedes; otherwise the original value is returned. -/
def pvalidate (p : Property) (ext : Ext) (v : PyVal) : Except Err PyVal :=
  if !choicesOk p v then .error Err.invalidChoice
  else if p.required && !v.isNone then .error Err.requiredAssert
  else if v.isNone then .ok .none
  else
    match pvalidateInner p ext v with
    | .error e => .error e
    | .ok _ =>
      match p.validator with
      | some f => .ok (f v)
      | Option.none => .ok v

/-- `BlobProperty._to_base_type`: `zlib.compress(value)` when `_compressed`
(a `TypeError` on non-string input), identity otherwise. -/
def blobToBase (ext : Ext) (compressed : Bool) (v : PyVal) : Except Err PyVal :=
  if compressed then
    match v with
    | .str bs => .ok (.str (ext.zlibCompress bs))
    | _ => .error Err.typeError
  else .ok v

/-- `BlobProperty._from_base_type`: when `_compressed`, reads `value.z_val`
(the storage driver's wrapper payload) and decompresses it — an
`AttributeError` on anything else; identity otherwise. -/
def blobFromBase (ext : Ext) (compressed : Bool) (v : PyVal) : Except Err PyVal :=
  if compressed then
    match v with
    | .zwrapped bs => .ok (.str (ext.zlibDecompress bs))
    | _ => .error Err.attributeError
  else .ok v

/-- The `_to_base_type` override of each class.  `PickleProperty` and
`JsonProperty` serialize and then call `BlobProperty._to_base_type` via
`super()`; `DateProperty`/`TimeProperty` widen to a full datetime (attribute
access `value.year`/`value.hour` also succeeds on datetime values). -/
def ptoBaseInner (p : Property) (ext : Ext) (v : PyVal) : Except Err PyVal :=
  match p.kind with
  | .base | .boolean | .integer | .float | .datetime => .ok v
  | .blob => blobToBase ext p.compressed v
  | .text | .string =>
    match v with
    | .str bs =>
      match ext.utf8Decode bs with
      | some s => .ok (.unicode s)
      | Option.none => .error Err.decodeError
    | _ => .ok v
  | .pickle => blobToBase ext p.compressed (.str (ext.pickleDumps v))
  | .json =>
    match ext.jsonDumps v with
    | some bs => blobToBase ext p.compressed (.str bs)
    | Option.none => .error Err.jsonError
  | .date =>
    match v with
    | .date d => .ok (.datetime ⟨d.year, d.month, d.day, 0, 0, 0, 0⟩)
    | .datetime d => .ok (.datetime ⟨d.year, d.month, d.day, 0, 0, 0, 0⟩)
    | _ => .error Err.attributeError
  | .time =>
    match v with
    | .time t => .ok (.datetime ⟨1970, 1, 1, t.hour, t.minute, t.second, t.microsecond⟩)
    | .datetime d => .ok (.datetime ⟨1970, 1, 1, d.hour, d.minute, d.second, d.microsecond⟩)
    | _ => .error Err.attributeError

/-- The `_from_base_type` override of each class.  `TextProperty`'s override
has no final `else` branch in the source, so a stored value that is neither
`str` nor `unicode` yields `None`; `PickleProperty`/`JsonProperty` first call
`BlobProperty._from_base_type` via `super()` and then deserialize. -/
def pfromBaseInner (p : Property) (ext : Ext) (v : PyVal) : Except Err PyVal :=
  match p.kind with
  | .base | .boolean | .integer | .float | .datetime => .ok v
  | .blob => blobFromBase ext p.compressed v
  | .text | .string =>
    match v with
    | .str bs =>
      match ext.utf8Decode bs with
      | some s => .ok (.unicode s)
      | Option.none => .error Err.decodeError
    | .unicode _ => .ok v
    | _ => .ok .none
  | .pickle =>
    match blobFromBase ext p.compressed v with
    | .error e => .error e
    | .ok (.str bs) => liftO (ext.pickleLoads bs) Err.pickleError
    | .ok _ => .error Err.typeError
  | .json =>
    match blobFromBase ext p.compressed v with
    | .error e => .error e
    | .ok (.str bs) => liftO (ext.jsonLoads bs) Err.jsonError
    | .ok _ => .error Err.typeError
  | .date =>
    match v with
    | .datetime d => .ok (.date d.toDate)
    | _ => .error Err.attributeError
  | .time =>
    match v with
    | .datetime d => .ok (.time d.toTime)
    | _ => .error Err.attributeError

/-- `Property.to_base_type`: `None` passes through, otherwise the
type-specific `_to_base_type`. -/
def ptoBase (p : Property) (ext : Ext) (v : PyVal) : Except Err PyVal :=
  if v.isNone then .ok .none else ptoBaseInner p ext v

/-- `Property.from_base_type`: `None` passes through, otherwise the
type-specific `_from_base_type`. -/
def pfromBase (p : Property) (ext : Ext) (v : PyVal) : Except Err PyVal :=
  if v.isNone then .ok .none else pfromBaseInner p ext v

/-- A Python list comprehension `[f(k) for k in xs]` over a fallible `f`:
elements are processed left to right and the first exception aborts the whole
comprehension (no partial list is ever produced). -/
def mapE (f : PyVal → Except Err PyVal) : List PyVal → Except Err (List PyVal)
  | [] => .ok []
  | x :: xs =>
    match f x with
    | .error e => .error e
    | .ok y =>
      match mapE f xs with
      | .error e => .error e
      | .ok ys => .ok (y :: ys)

/-- `Property.__set__` (lines 32-39).  Repeated: assert the value is a
sequence, validate every element, then convert every element, and only then
perform the single dict assignment — an exception anywhere leaves the entity
mapping untouched, because the assignment statement is never reached.
Scalar: validate, convert, assign. -/
def pset (p : Property) (ext : Ext) (e : Entity) (v : PyVal) : Except Err Entity :=
  if p.repeated then
    match v with
    | .list xs =>
      match mapE (pvalidate p ext) xs with
      | .error err => .error err
      | .ok ys =>
        match mapE (ptoBase p ext) ys with
        | .error err => .error err
        | .ok bs => .ok (Entity.insert e p.name (.list bs))
    | _ => .error Err.repeatedAssert
  else
    match pvalidate p ext v with
    | .error err => .error err
    | .ok y =>
      match ptoBase p ext y with
      | .error err => .error err
      | .ok b => .ok (Entity.insert e p.name b)

/-- `Property.__get__` (lines 20-30).  If the storage name is absent the
default is materialized through `__set__` (`self._default or []` for a
repeated property), then the stored base value is read back through
`from_base_type` (elementwise for a repeated property).  Returns the user
value together with the possibly-updated entity mapping. -/
def pget (p : Property) (ext : Ext) (e : Entity) : Except Err (PyVal × Entity) :=
  if p.repeated then
    match
      (match Entity.lookup e p.name with
       | Option.none =>
         pset p ext e (if p.default.truthy then p.default else .list [])
       | some _ => .ok e) with
    | .error err => .error err
    | .ok e1 =>
      match Entity.lookup e1 p.name with
      | some (.list bs) =>
        match mapE (pfromBase p ext) bs with
        | .error err => .error err
        | .ok vs => .ok (.list vs, e1)
      | some _ => .error Err.typeError
      | Option.none => .error Err.keyError
  else
    match
      (match Entity.lookup e p.name with
       | Option.none => pset p ext e p.default
       | some _ => .ok e) with
    | .error err => .error err
    | .ok e1 =>
      match Entity.lookup e1 p.name with
      | some b =>
        match pfromBase p ext b with
        | .error err => .error err
        | .ok v => .ok (v, e1)
      | Option.none => .error Err.keyError

/-- `Property.__delete__` (lines 41-42): `instance.pop(self._name, None)` —
removes the binding if present, no error if absent. -/
def pdelete (p : Property) (e : Entity) : Entity :=
  Entity.eraseKey e p.name

/-- `self._now()`: `DateTimeProperty` (and `TimeProperty`, which does not
override `_now`) returns `datetime.datetime.utcnow()`; `DateProperty` returns
`datetime.datetime.utcnow().date()`.  The ambient current time is the
parameter `now`. -/
def nowVal (kind : PKind) (now : PyDateTime) : PyVal :=
  match kind with
  | .date => .date now.toDate
  | _ => .datetime now

/-- `DateTimeProperty._prepare_for_put` (lines 208-214), for the datetime
family (every other class inherits the base no-op): read the current value via
`getattr` (descriptor `__get__`, which may materialize the default), assign
`self._now()` via `setattr` (descriptor `__set__`) if the value is `None` and
`auto_now_add` is set, then assign `self._now()` unconditionally if
`auto_now` is set. -/
def prepForPut (p : Property) (ext : Ext) (now : PyDateTime) (e : Entity) :
    Except Err Entity :=
  match p.kind with
  | .datetime | .date | .time =>
    match pget p ext e with
    | .error err => .error err
    | .ok (v, e1) =>
      match
        (if v.isNone && p.autoNowAdd then pset p ext e1 (nowVal p.kind now)
         else .ok e1) with
      | .error err => .error err
      | .ok e2 => if p.autoNow then pset p ext e2 (nowVal p.kind now) else .ok e2
  | _ => .ok e

/-- Sign-magnitude encoding of an integer, used by the stand-in codec below. -/
def encInt (n : Int) : List Nat :=
  if n < 0 then [1, n.natAbs] else [0, n.natAbs]

/-- A simple executable serialization of scalar `PyVal`s into a token list;
it stands in for the opaque byte output of `cPickle.dumps` / `json.dumps` when
the external environment is instantiated concretely (nested sequences are not
supported by this stand-in: they encode to an undecodable token). -/
def pyEncode : PyVal → List Nat
  | .none => [0]
  | .bool b => [1, if b then 1 else 0]
  | .int n => 2 :: encInt n
  | .float q => 3 :: (encInt q.num ++ [q.den])
  | .str bs => 4 :: bs
  | .unicode s => 5 :: s.toList.map Char.toNat
  | .datetime d => [6, d.year, d.month, d.day, d.hour, d.minute, d.second, d.microsecond]
  | .date d => [7, d.year, d.month, d.day]
  | .time t => [8, t.hour, t.minute, t.second, t.microsecond]
  | .list _ => [9]
  | .zwrapped bs => 10 :: bs

/-- Decoder for `pyEncode` on the scalar fragment. -/
def pyDecode : List Nat → Option PyVal
  | [0] => some .none
  | [1, b] => some (.bool (b == 1))
  | 2 :: s :: m :: [] => some (.int (if s == 1 then -(m : Int) else (m : Int)))
  | 3 :: s :: m :: d :: [] => some (.float (mkRat (if s == 1 then -(m : Int) else (m : Int)) d))
  | 4 :: bs => some (.str bs)
  | 5 :: cs => some (.unicode (String.mk (cs.map Char.ofNat)))
  | [6, y, mo, d, h, mi, sc, us] => some (.datetime ⟨y, mo, d, h, mi, sc, us⟩)
  | [7, y, mo, d] => some (.date ⟨y, mo, d⟩)
  | [8, h, mi, sc, us] => some (.time ⟨h, mi, sc, us⟩)
  | 10 :: bs => some (.zwrapped bs)
  | _ => Option.none

/-- A concrete external environment used by witnesses: reversible stand-ins
for `zlib`, an ASCII-only stand-in for the UTF-8 codec, and `pyEncode` /
`pyDecode` standing in for the pickle and JSON codecs. -/
def ext0 : Ext :=
  { zlibCompress := List.reverse
    zlibDecompress := List.reverse
    utf8Decode := fun bs =>
      if bs.all (· < 128) then some (String.mk (bs.map Char.ofNat)) else Option.none
    pickleDumps := pyEncode
    pickleLoads := pyDecode
    jsonDumps := fun v => some (pyEncode v)
    jsonLoads := pyDecode }

/-! ## Helper lemmas about the entity mapping and elementwise processing -/

@[simp]
theorem Entity.lookup_insert_self (e : Entity) (k : Option String) (v : PyVal) :
    Entity.lookup (Entity.insert e k v) k = some v := by
  simp [Entity.insert, Entity.lookup]

@[simp]
theorem Entity.lookup_eraseKey_self (e : Entity) (k : Option String) :
    Entity.lookup (Entity.eraseKey e k) k = Option.none := by
  induction e with
  | nil => rfl
  | cons kv rest ih =>
    by_cases h : kv.fst = k
    · simp [Entity.eraseKey, List.filter, h] at ih ⊢
      exact ih
    · simp only [Entity.eraseKey, List.filter] at ih ⊢
      have hb : (kv.fst == k) = false := beq_eq_false_iff_ne.mpr h
      simp [hb, Entity.lookup, h] at ih ⊢
      exact ih

theorem Entity.eraseKey_idem (e : Entity) (k : Option String) :
    Entity.eraseKey (Entity.eraseKey e k) k = Entity.eraseKey e k := by
  simp only [Entity.eraseKey, List.filter_filter]
  simp

theorem Entity.insert_insert (e : Entity) (k : Option String) (a b : PyVal) :
    Entity.insert (Entity.insert e k a) k b = Entity.insert e k b := by
  simp only [Entity.insert]
  congr 1
  have h1 : Entity.eraseKey ((k, a) :: Entity.eraseKey e k) k
      = Entity.eraseKey (Entity.eraseKey e k) k := by
    simp [Entity.eraseKey, List.filter]
  rw [h1, Entity.eraseKey_idem]

theorem mapE_ok_length (f : PyVal → Except Err PyVal) (xs ys : List PyVal)
    (h : mapE f xs = .ok ys) : ys.length = xs.length := by
  induction xs generalizing ys with
  | nil => simp [mapE] at h; simp [← h]
  | cons x rest ih =>
    simp only [mapE] at h
    cases hx : f x with
    | error err => rw [hx] at h; exact absurd h (by simp)
    | ok y =>
      rw [hx] at h
      cases hr : mapE f rest with
      | error err => rw [hr] at h; exact absurd h (by simp)
      | ok ys2 =>
        rw [hr] at h
        cases h
        simp [ih ys2 hr]

theorem mapE_ok_getD (f : PyVal → Except Err PyVal) (xs ys : List PyVal)
    (h : mapE f xs = .ok ys) :
    ∀ i, i < xs.length → f (xs.getD i .none) = .ok (ys.getD i .none) := by
  induction xs generalizing ys with
  | nil => intro i hi; simp at hi
  | cons x rest ih =>
    intro i hi
    simp only [mapE] at h
    cases hx : f x with
    | error err => rw [hx] at h; exact absurd h (by simp)
    | ok y =>
      rw [hx] at h
      cases hr : mapE f rest with
      | error err => rw [hr] at h; exact absurd h (by simp)
      | ok ys2 =>
        rw [hr] at h
        cases h
        cases i with
        | zero => simpa using hx
        | succ j =>
          simp only [List.getD_cons_succ]
          exact ih ys2 hr j (by simpa using hi)

/-- The type-specific `_validate` overrides can only fail with a type
assertion or a decode error, never with the choices assertion. -/
theorem pvalidateInner_ne_invalidChoice (p : Property) (ext : Ext) (v : PyVal) :
    pvalidateInner p ext v ≠ .error Err.invalidChoice := by
  unfold pvalidateInner
  cases p.kind <;> cases v <;> simp <;> split <;> simp

/-- The base value computed by `__set__`, in isolation: `__set__` writes
`instance[self._name] = b` for exactly this `b` (and performs no other
mutation), so `pset` factors through it. -/
def psetVal (p : Property) (ext : Ext) (v : PyVal) : Except Err PyVal :=
  if p.repeated then
    match v with
    | .list xs =>
      match mapE (pvalidate p ext) xs with
      | .error err => .error err
      | .ok ys =>
        match mapE (ptoBase p ext) ys with
        | .error err => .error err
        | .ok bs => .ok (.list bs)
    | _ => .error Err.repeatedAssert
  else
    match pvalidate p ext v with
    | .error err => .error err
    | .ok y => ptoBase p ext y

theorem pset_eq_psetVal (p : Property) (ext : Ext) (e : Entity) (v : PyVal) :
    pset p ext e v = (psetVal p ext v).map (Entity.insert e p.name) := by
  cases hr : p.repeated <;> simp only [pset, psetVal, hr] <;>
    simp only [Bool.false_eq_true, if_false, if_true]
  · cases pvalidate p ext v with
    | error err => rfl
    | ok y =>
      dsimp only
      cases ptoBase p ext y <;> rfl
  · cases v <;> try rfl
    rename_i xs
    dsimp only
    cases mapE (pvalidate p ext) xs with
    | error err => rfl
    | ok ys =>
      dsimp only
      cases mapE (ptoBase p ext) ys <;> rfl

/-- The default that `__get__` materializes when the storage name is absent:
`self._default or []` for a repeated property, `self._default` otherwise. -/
def pgetDefault (p : Property) : PyVal :=
  if p.repeated then (if p.default.truthy then p.default else .list []) else p.default

/-- The user value `__get__` computes from a stored base value: elementwise
`from_base_type` for a repeated property (a non-sequence stored value is not
iterable), plain `from_base_type` otherwise. -/
def pgetValStored (p : Property) (ext : Ext) (b : PyVal) : Except Err PyVal :=
  if p.repeated then
    match b with
    | .list bs => (mapE (pfromBase p ext) bs).map .list
    | _ => .error Err.typeError
  else pfromBase p ext b

/-- `__get__` factored into lookup, default materialization and read-back. -/
theorem pget_eq (p : Property) (ext : Ext) (e : Entity) :
    pget p ext e =
      match Entity.lookup e p.name with
      | some b => (pgetValStored p ext b).map (fun v => (v, e))
      | Option.none =>
        match psetVal p ext (pgetDefault p) with
        | .error err => .error err
        | .ok b => (pgetValStored p ext b).map (fun v => (v, Entity.insert e p.name b)) := by
  cases hr : p.repeated <;>
    simp only [pget, pgetValStored, pgetDefault, hr] <;>
    simp only [Bool.false_eq_true, if_false, if_true]
  · cases hl : Entity.lookup e p.name with
    | none =>
      dsimp only
      rw [pset_eq_psetVal]
      cases psetVal p ext p.default with
      | error err => rfl
      | ok b =>
        dsimp only [Except.map]
        simp only [Entity.lookup_insert_self]
        cases pfromBase p ext b <;> rfl
    | some b =>
      dsimp only
      rw [hl]
      dsimp only
      cases pfromBase p ext b <;> rfl
  · cases hl : Entity.lookup e p.name with
    | none =>
      dsimp only
      rw [pset_eq_psetVal]
      cases psetVal p ext (if p.default.truthy = true then p.default else .list []) with
      | error err => rfl
      | ok b =>
        dsimp only [Except.map]
        simp only [Entity.lookup_insert_self]
        cases b
        case list bs =>
          try dsimp only
          cases mapE (pfromBase p ext) bs <;> rfl
        all_goals rfl
    | some b =>
      dsimp only
      rw [hl]
      try dsimp only
      cases b
      case list bs =>
        try dsimp only
        cases mapE (pfromBase p ext) bs <;> rfl
      all_goals rfl

/-- The user value produced by `__get__` (and whether it fails) depends only
on the binding stored under the property's name, not on the rest of the
entity mapping. -/
theorem pget_fst_congr (p : Property) (ext : Ext) (e1 e2 : Entity)
    (h : Entity.lookup e1 p.name = Entity.lookup e2 p.name) :
    (pget p ext e1).map Prod.fst = (pget p ext e2).map Prod.fst := by
  rw [pget_eq p ext e1, pget_eq p ext e2, h]
  cases Entity.lookup e2 p.name with
  | some b =>
    dsimp only
    cases pgetValStored p ext b <;> rfl
  | none =>
    dsimp only
    cases psetVal p ext (pgetDefault p) with
    | error err => rfl
    | ok b =>
      dsimp only
      cases pgetValStored p ext b <;> rfl

/-- Assigning a datetime value through `__set__` succeeds for a scalar
`DateTimeProperty` with no choices, no required flag and no custom
validator, and stores the value unchanged. -/
theorem pset_datetime_ok (p : Property) (ext : Ext) (e : Entity) (d : PyDateTime)
    (hk : p.kind = .datetime) (hrep : p.repeated = false) (hch : p.choices = none)
    (hreq : p.required = false) (hvl : p.validator = none) :
    pset p ext e (.datetime d) = .ok (Entity.insert e p.name (.datetime d)) := by
  simp [pset, hrep, pvalidate, choicesOk, hch, hreq, PyVal.isNone, pvalidateInner, hk,
    hvl, ptoBase, ptoBaseInner]

/-! ## Claim theorems -/

/-- Claim C1: the intended rule is that a required property must have a
non-null value (validate(null) fails, validate(non-null) passes the required
check).  The source's `assert not (self._required and value is not None)`
inverts this: this theorem evaluates `Property(required=True).validate` at the
failing inputs and shows that `None` is accepted (returned unchanged) while
the non-null value `1` trips the required assertion — the exact opposite of
the claim, substantiating that the code, not the claim, is wrong here (the
spec itself flags this line as a defect). -/
theorem claim1_required_check_inverted :
    pvalidate (Property.init .base (some "x") true false true .none none none) ext0
        .none = .ok .none
    ∧ pvalidate (Property.init .base (some "x") true false true .none none none) ext0
        (.int 1) = .error Err.requiredAssert :=
  ⟨rfl, rfl⟩

/-- Claim C2, counterexample: for `Property(choices=[1])`, `validate(None)`
fails with the choices assertion, refuting the claim that a null value always
passes the choices check (the source checks `value in self._choices` before
the null short-circuit, so `None` fails unless `None` is itself a member). -/
theorem claim2_counterexample :
    pvalidate (Property.init .base (some "x") true false false .none
        (some [.int 1]) none) ext0 .none = .error Err.invalidChoice :=
  rfl

/-- Claim C2, amended: when `choices` is configured, `validate(value)` fails
with the choices assertion exactly when `value` is not a member of `choices`
under Python equality — a null value is not exempt; it passes the choices
check only if null is itself a member of `choices`. -/
theorem claim2_choices_amended (p : Property) (ext : Ext) (v : PyVal) (cs : List PyVal)
    (hch : p.choices = some cs) :
    pvalidate p ext v = .error Err.invalidChoice ↔ cs.any (pyEq v) = false := by
  have hco : choicesOk p v = cs.any (pyEq v) := by simp [choicesOk, hch]
  unfold pvalidate
  rw [hco]
  cases hA : cs.any (pyEq v) with
  | false => simp
  | true =>
    simp only [Bool.not_true, Bool.false_eq_true, if_false]
    constructor
    · intro hEq
      by_cases hreq : (p.required && !v.isNone) = true
      · rw [if_pos hreq] at hEq
        exact absurd (Except.error.inj hEq) (by simp)
      · rw [if_neg hreq] at hEq
        by_cases hn : v.isNone = true
        · rw [if_pos hn] at hEq
          exact absurd hEq (by simp)
        · rw [if_neg hn] at hEq
          cases hI : pvalidateInner p ext v with
          | error err =>
            rw [hI] at hEq
            cases Except.error.inj hEq
            exact absurd hI (pvalidateInner_ne_invalidChoice p ext v)
          | ok y =>
            rw [hI] at hEq
            cases hV : p.validator with
            | some f => rw [hV] at hEq; exact absurd hEq (by simp)
            | none => rw [hV] at hEq; exact absurd hEq (by simp)
    · intro hFalse
      exact absurd hFalse (by simp)

/-- Claim C2, witness for the amended theorem: `Property(choices=[1])`
rejects `None` with the choices assertion, by the amended characterization. -/
theorem claim2_choices_amended_witness :
    pvalidate (Property.init .base (some "y") true false false .none
        (some [.int 1]) none) ext0 .none = .error Err.invalidChoice :=
  (claim2_choices_amended
    (Property.init .base (some "y") true false false .none (some [.int 1]) none)
    ext0 .none [.int 1] rfl).mpr rfl

/-- Claim C3: the claim says `BlobProperty(compressed=True, indexed=True)`
must fail with a configuration error at construction time.  In the source,
`BlobProperty.__init__` pops the `indexed` kwarg and hardcodes
`indexed=False`, so the guard `assert not (compressed and self._indexed)` —
whose own message says the combination must be rejected — can never fire:
construction succeeds, returning a descriptor with `indexed=False` and
`compressed=True`.  This theorem evaluates the constructor at exactly that
failing input. -/
theorem claim3_construction_succeeds :
    (BlobProperty.initK .blob none true (some true) false false .none none none).map
      (fun p => (p.indexed, p.compressed)) = .ok (false, true) :=
  rfl

/-- Claim C4: the claim says `StringProperty` has `indexed=True` by default
(and honors an explicit `indexed=True`).  In the source the `indexed`
argument — whether defaulted to `True` by `StringProperty.__init__`'s
signature or passed explicitly — is forwarded into `BlobProperty.__init__`'s
`**kwargs`, popped there, and replaced by a hardcoded `indexed=False`; the
constructed descriptor always has `indexed=False`.  This theorem evaluates
`StringProperty` construction with `indexed=True` (the Python default value,
so it covers both the defaulted and the explicit call). -/
theorem claim4_string_not_indexed :
    (StringProperty.init none true false false false .none none none).map
      (fun p => p.indexed) = .ok false :=
  rfl

/-- Claim C6, counterexample: `FloatProperty()` set to the integer `5` stores
the base value `5` as an integer, not a value widened to a floating-point
representation — `validate` discards `_validate`'s return (`float(value)`),
returning the original value, and `to_base_type` is the identity for
`FloatProperty`. -/
theorem claim6_counterexample :
    pset (Property.init .float (some "f") true false false .none none none) ext0 []
        (.int 5) = .ok [(some "f", PyVal.int 5)]
    ∧ ∀ q : ℚ, PyVal.int 5 ≠ PyVal.float q :=
  ⟨rfl, fun _ h => by injection h⟩

/-- Claim C6, amended: `IntegerProperty._validate` accepts exactly integral
values (including booleans, a subclass of `int`) and computes `int(value)`,
and `FloatProperty._validate` accepts exactly numeric values and computes
`float(value)` — but `validate` discards that result and (absent a custom
validator) returns the original value, so `__set__` stores the value exactly
as given, with no narrowing or widening. -/
theorem claim6_amended (p : Property) (ext : Ext) (e : Entity) (v : PyVal)
    (hvl : p.validator = none) (hch : p.choices = none) (hreq : p.required = false)
    (hrep : p.repeated = false) :
    (p.kind = .integer → isIntLike v = true →
      pvalidateInner p ext v = .ok (intOf v)
        ∧ pset p ext e v = .ok (Entity.insert e p.name v))
    ∧ (p.kind = .float → isNumLike v = true →
      pvalidateInner p ext v = .ok (floatOf v)
        ∧ pset p ext e v = .ok (Entity.insert e p.name v)) := by
  constructor
  · intro hk hv
    have hn : v.isNone = false := by cases v <;> simp_all [isIntLike, PyVal.isNone]
    constructor
    · simp [pvalidateInner, hk, hv]
    · simp [pset, hrep, pvalidate, choicesOk, hch, hreq, hn, pvalidateInner, hk, hv,
        hvl, ptoBase, ptoBaseInner]
  · intro hk hv
    have hn : v.isNone = false := by cases v <;> simp_all [isNumLike, PyVal.isNone]
    constructor
    · simp [pvalidateInner, hk, hv]
    · simp [pset, hrep, pvalidate, choicesOk, hch, hreq, hn, pvalidateInner, hk, hv,
        hvl, ptoBase, ptoBaseInner]

/-- Claim C6, witness for the amended theorem: `FloatProperty()` set to the
integer `5` computes `float(5)` inside `_validate` yet stores `5` itself. -/
theorem claim6_amended_witness :
    pvalidateInner (Property.init .float (some "g") true false false .none none none)
        ext0 (.int 5) = .ok (floatOf (.int 5))
    ∧ pset (Property.init .float (some "g") true false false .none none none) ext0 []
        (.int 5)
      = .ok (Entity.insert [] (some "g") (.int 5)) :=
  (claim6_amended (Property.init .float (some "g") true false false .none none none)
    ext0 [] (.int 5) rfl rfl rfl rfl).2 rfl rfl

/-- The values of each variant's user type, as the round-trip contract scopes
them: the variant's domain type for the typed variants (decoded text for
`TextProperty`/`StringProperty`, a date-only value for `DateProperty`, and so
on), and for the codec variants any value the codec round-trips (the codec
itself is external to the source). -/
def ValidUser (ext : Ext) : PKind → PyVal → Prop
  | .base, _ => True
  | .boolean, v => ∃ b, v = .bool b
  | .integer, v => (∃ n, v = .int n) ∨ (∃ b, v = .bool b)
  | .float, v => ∃ q, v = .float q
  | .blob, v => ∃ bs, v = .str bs
  | .text, v => ∃ s, v = .unicode s
  | .string, v => ∃ s, v = .unicode s
  | .pickle, v => ext.pickleLoads (ext.pickleDumps v) = some v
  | .json, v => ∃ bs, ext.jsonDumps v = some bs ∧ ext.jsonLoads bs = some v
  | .datetime, v => ∃ d, v = .datetime d
  | .date, v => ∃ d, v = .date d
  | .time, v => ∃ t, v = .time t

/-- Claim C5: for every variant with compression off and every valid value
`v` of the variant's user type, `from_base_type(to_base_type(v))` returns a
value equal to `v`.  For the scalar and datetime variants the conversions are
identities or exact inverses; for `TextProperty`/`StringProperty` a decoded
text value passes through both directions unchanged; for `PickleProperty` and
`JsonProperty` the store direction is `dumps` and the load direction `loads`,
so the contract holds for every value the codec round-trips (structural
equality). -/
theorem claim5_round_trip (p : Property) (ext : Ext) (v : PyVal)
    (hc : p.compressed = false) (hv : ValidUser ext p.kind v) :
    (ptoBase p ext v).bind (pfromBase p ext) = .ok v := by
  cases hk : p.kind
  case base =>
    cases v <;>
      simp [Except.bind, ptoBase, ptoBaseInner, pfromBase, pfromBaseInner, hk, PyVal.isNone]
  case boolean =>
    rw [hk] at hv
    obtain ⟨b, rfl⟩ := hv
    simp [Except.bind, ptoBase, ptoBaseInner, pfromBase, pfromBaseInner, hk, PyVal.isNone]
  case integer =>
    rw [hk] at hv
    rcases hv with ⟨n, rfl⟩ | ⟨b, rfl⟩ <;>
      simp [Except.bind, ptoBase, ptoBaseInner, pfromBase, pfromBaseInner, hk, PyVal.isNone]
  case float =>
    rw [hk] at hv
    obtain ⟨q, rfl⟩ := hv
    simp [Except.bind, ptoBase, ptoBaseInner, pfromBase, pfromBaseInner, hk, PyVal.isNone]
  case blob =>
    rw [hk] at hv
    obtain ⟨bs, rfl⟩ := hv
    simp [Except.bind, ptoBase, ptoBaseInner, pfromBase, pfromBaseInner, hk, PyVal.isNone,
      blobToBase, blobFromBase, hc]
  case text =>
    rw [hk] at hv
    obtain ⟨s, rfl⟩ := hv
    simp [Except.bind, ptoBase, ptoBaseInner, pfromBase, pfromBaseInner, hk, PyVal.isNone]
  case string =>
    rw [hk] at hv
    obtain ⟨s, rfl⟩ := hv
    simp [Except.bind, ptoBase, ptoBaseInner, pfromBase, pfromBaseInner, hk, PyVal.isNone]
  case pickle =>
    rw [hk] at hv
    have hv2 : ext.pickleLoads (ext.pickleDumps v) = some v := hv
    cases hn : v.isNone
    · unfold ptoBase
      rw [hn]
      simp only [Bool.false_eq_true, if_false]
      simp only [ptoBaseInner, hk, blobToBase, hc, Bool.false_eq_true, if_false,
        Except.bind]
      simp [pfromBase, PyVal.isNone, pfromBaseInner, hk, blobFromBase, hc, liftO, hv2]
    · have : v = .none := by cases v <;> simp_all [PyVal.isNone]
      subst this
      simp [Except.bind, ptoBase, pfromBase, PyVal.isNone]
  case json =>
    rw [hk] at hv
    obtain ⟨bs, hdump, hload⟩ := hv
    cases hn : v.isNone
    · unfold ptoBase
      rw [hn]
      simp only [Bool.false_eq_true, if_false]
      simp only [ptoBaseInner, hk, hdump, blobToBase, hc, Bool.false_eq_true, if_false,
        Except.bind]
      simp [pfromBase, PyVal.isNone, pfromBaseInner, hk, blobFromBase, hc, liftO, hload]
    · have : v = .none := by cases v <;> simp_all [PyVal.isNone]
      subst this
      simp [Except.bind, ptoBase, pfromBase, PyVal.isNone]
  case datetime =>
    rw [hk] at hv
    obtain ⟨d, rfl⟩ := hv
    simp [Except.bind, ptoBase, ptoBaseInner, pfromBase, pfromBaseInner, hk, PyVal.isNone]
  case date =>
    rw [hk] at hv
    obtain ⟨d, rfl⟩ := hv
    cases d
    simp [Except.bind, ptoBase, ptoBaseInner, pfromBase, pfromBaseInner, hk, PyVal.isNone,
      PyDateTime.toDate]
  case time =>
    rw [hk] at hv
    obtain ⟨t, rfl⟩ := hv
    cases t
    simp [Except.bind, ptoBase, ptoBaseInner, pfromBase, pfromBaseInner, hk, PyVal.isNone,
      PyDateTime.toTime]

/-- Claim C5, witness: an uncompressed `PickleProperty` round-trips the
integer `5` through the concrete codec environment `ext0`. -/
theorem claim5_round_trip_witness :
    ValidUser ext0 PKind.pickle (PyVal.int 5)
    ∧ (ptoBase (Property.init .pickle (some "p") false false false .none none none)
          ext0 (PyVal.int 5)).bind
        (pfromBase (Property.init .pickle (some "p") false false false .none none none)
          ext0)
      = .ok (PyVal.int 5) :=
  ⟨by unfold ValidUser; rfl,
    claim5_round_trip
      (Property.init .pickle (some "p") false false false .none none none)
      ext0 (PyVal.int 5) rfl (by unfold ValidUser; rfl)⟩

/-- Claim C7: for a scalar `DateTimeProperty` with no choices, required flag
or custom validator, whose `__get__` yields current value `v` (materializing
into `e1`): with `auto_now_add=True` and `auto_now=False`, `_prepare_for_put`
assigns the current UTC timestamp exactly when `v` is null and leaves a
non-null value unchanged; with `auto_now=True`, it overwrites with the
current UTC timestamp regardless of the prior value. -/
theorem claim7_prepare_for_put (p : Property) (ext : Ext) (now : PyDateTime)
    (e e1 : Entity) (v : PyVal)
    (hk : p.kind = .datetime) (hrep : p.repeated = false) (hch : p.choices = none)
    (hreq : p.required = false) (hvl : p.validator = none)
    (hget : pget p ext e = .ok (v, e1)) :
    (p.autoNowAdd = true → p.autoNow = false →
      prepForPut p ext now e
        = .ok (if v.isNone then Entity.insert e1 p.name (.datetime now) else e1))
    ∧ (p.autoNow = true →
      prepForPut p ext now e = .ok (Entity.insert e1 p.name (.datetime now))) := by
  have hset : ∀ e2 : Entity,
      pset p ext e2 (nowVal p.kind now) = .ok (Entity.insert e2 p.name (.datetime now)) := by
    intro e2
    rw [hk]
    exact pset_datetime_ok p ext e2 now hk hrep hch hreq hvl
  have hmain : prepForPut p ext now e =
      match (if v.isNone && p.autoNowAdd then pset p ext e1 (nowVal p.kind now)
             else .ok e1) with
      | .error err => .error err
      | .ok e2 => if p.autoNow then pset p ext e2 (nowVal p.kind now) else .ok e2 := by
    unfold prepForPut
    rw [hk]
    dsimp only
    rw [hget]
  constructor
  · intro ha hn
    rw [hmain, ha, hn]
    cases hv : v.isNone
    · simp
    · simp [hset]
  · intro hn
    rw [hmain, hn]
    cases hcond : (v.isNone && p.autoNowAdd)
    · simp [hset]
    · simp [hset, Entity.insert_insert]

/-- Claim C7, witness: a `DateTimeProperty(auto_now=True)` record with no
stored value gets the current timestamp written by `_prepare_for_put`. -/
theorem claim7_prepare_for_put_witness :
    prepForPut { Property.init .datetime (some "t") true false false .none none none with
        autoNow := true } ext0 ⟨2020, 1, 2, 3, 4, 5, 6⟩ []
      = .ok [(some "t", PyVal.datetime ⟨2020, 1, 2, 3, 4, 5, 6⟩)] :=
  (claim7_prepare_for_put
    { Property.init .datetime (some "t") true false false .none none none with
        autoNow := true }
    ext0 ⟨2020, 1, 2, 3, 4, 5, 6⟩ [] [(some "t", PyVal.none)] PyVal.none
    rfl rfl rfl rfl rfl rfl).2 rfl

/-- Claim C8: `__set__` is all-or-nothing.  A repeated property rejects any
non-sequence outright; for a sequence, the assignment succeeds exactly when
every element validates and every element converts, and the successful result
is a single update binding the full converted sequence (never a partial one).
A scalar assignment succeeds exactly when the value validates and converts,
and then performs the single update.  In the source an exception raised by
`validate` or `to_base_type` propagates before the dict assignment statement
runs, so on failure (modelled by the `.error` results here) the entity
mapping is left unmodified. -/
theorem claim8_set_atomicity (p : Property) (ext : Ext) (e : Entity) (v : PyVal)
    (xs : List PyVal) :
    (p.repeated = true → (∀ ys, v ≠ .list ys) →
      pset p ext e v = .error Err.repeatedAssert)
    ∧ (p.repeated = true → ∀ e2,
      (pset p ext e (.list xs) = .ok e2
        ↔ ∃ ys bs, mapE (pvalidate p ext) xs = .ok ys
            ∧ mapE (ptoBase p ext) ys = .ok bs
            ∧ e2 = Entity.insert e p.name (.list bs)))
    ∧ (p.repeated = false → ∀ e2,
      (pset p ext e v = .ok e2
        ↔ ∃ y b, pvalidate p ext v = .ok y ∧ ptoBase p ext y = .ok b
            ∧ e2 = Entity.insert e p.name b)) := by
  refine ⟨?_, ?_, ?_⟩
  · intro hrep hnl
    simp only [pset, hrep, if_true]
  · intro hrep e2
    simp only [pset, hrep, if_true]
    try dsimp only
    constructor
    · intro h
      cases h1 : mapE (pvalidate p ext) xs with
      | error err => rw [h1] at h; exact absurd h (by simp)
      | ok ys =>
        rw [h1] at h
        try dsimp only at h
        cases h2 : mapE (ptoBase p ext) ys with
        | error err => rw [h2] at h; exact absurd h (by simp)
        | ok bs =>
          rw [h2] at h
          try dsimp only at h
          exact ⟨ys, bs, rfl, h2, (Except.ok.inj h).symm⟩
    · rintro ⟨ys, bs, h1, h2, rfl⟩
      rw [h1]
      try dsimp only
      rw [h2]
  · intro hrep e2
    simp only [pset, hrep, Bool.false_eq_true, if_false]
    constructor
    · intro h
      cases h1 : pvalidate p ext v with
      | error err => rw [h1] at h; exact absurd h (by simp)
      | ok y =>
        rw [h1] at h
        try dsimp only at h
        cases h2 : ptoBase p ext y with
        | error err => rw [h2] at h; exact absurd h (by simp)
        | ok b =>
          rw [h2] at h
          try dsimp only at h
          exact ⟨y, b, rfl, h2, (Except.ok.inj h).symm⟩
    · rintro ⟨y, b, h1, h2, rfl⟩
      rw [h1]
      try dsimp only
      rw [h2]

/-- Claim C8, witness: a repeated `IntegerProperty` assignment of a valid
two-element list succeeds and writes exactly the full converted sequence. -/
theorem claim8_set_atomicity_witness :
    pset (Property.init .integer (some "r") true true false .none none none) ext0 []
        (.list [.int 1, .int 2])
      = .ok [(some "r", PyVal.list [.int 1, .int 2])] :=
  ((claim8_set_atomicity
      (Property.init .integer (some "r") true true false .none none none) ext0 []
      (.int 0) [.int 1, .int 2]).2.1 rfl
    [(some "r", PyVal.list [.int 1, .int 2])]).mpr
    ⟨[.int 1, .int 2], [.int 1, .int 2], rfl, rfl, rfl⟩

/-- Elements produced by a successful elementwise pass all come from the
input: when `mapE f xs` succeeds with `ys`, each member of `ys` is the image
of some member of `xs`. -/
theorem mapE_ok_mem (f : PyVal → Except Err PyVal) (xs ys : List PyVal)
    (h : mapE f xs = .ok ys) : ∀ b ∈ ys, ∃ x ∈ xs, f x = .ok b := by
  induction xs generalizing ys with
  | nil =>
    simp only [mapE] at h
    cases h
    intro b hb
    simp at hb
  | cons x rest ih =>
    intro b hb
    simp only [mapE] at h
    cases hx : f x with
    | error err => rw [hx] at h; exact absurd h (by simp)
    | ok y =>
      rw [hx] at h
      cases hr : mapE f rest with
      | error err => rw [hr] at h; exact absurd h (by simp)
      | ok ys2 =>
        rw [hr] at h
        cases h
        rcases List.mem_cons.mp hb with rfl | hb2
        · exact ⟨x, List.mem_cons_self x rest, hx⟩
        · obtain ⟨x2, hx2, hfx2⟩ := ih ys2 hr b hb2
          exact ⟨x2, List.mem_cons_of_mem x hx2, hfx2⟩

/-- An elementwise pass succeeds whenever `f` succeeds on every element. -/
theorem mapE_ok_of_forall (f : PyVal → Except Err PyVal) (bs : List PyVal)
    (h : ∀ b ∈ bs, ∃ u, f b = .ok u) : ∃ vs, mapE f bs = .ok vs := by
  induction bs with
  | nil => exact ⟨[], rfl⟩
  | cons b rest ih =>
    obtain ⟨u, hu⟩ := h b (List.mem_cons_self b rest)
    obtain ⟨vs, hvs⟩ := ih (fun c hc => h c (List.mem_cons_of_mem b hc))
    refine ⟨u :: vs, ?_⟩
    simp only [mapE]
    rw [hu]
    try dsimp only
    rw [hvs]

/-- With compression off — and, for the codec variants, the library contract
that `loads` succeeds on `dumps` output — every base value produced by a
successful `to_base_type` is accepted by `from_base_type`. -/
theorem toBase_fromBase_ok (p : Property) (ext : Ext)
    (hc : p.compressed = false)
    (hpk : p.kind = .pickle → ∀ v, ∃ w, ext.pickleLoads (ext.pickleDumps v) = some w)
    (hjs : p.kind = .json →
      ∀ bs v, ext.jsonDumps v = some bs → ∃ w, ext.jsonLoads bs = some w)
    (y b : PyVal) (h : ptoBase p ext y = .ok b) :
    ∃ u, pfromBase p ext b = .ok u := by
  by_cases hy : y.isNone = true
  · have hyn : y = .none := by cases y <;> simp_all [PyVal.isNone]
    subst hyn
    have hb : PyVal.none = b := by simpa [ptoBase, PyVal.isNone] using h
    subst hb
    exact ⟨.none, rfl⟩
  · have hyf : y.isNone = false := by simpa using hy
    rw [ptoBase, hyf] at h
    simp only [Bool.false_eq_true, if_false] at h
    unfold ptoBaseInner at h
    cases hk : p.kind with
    | base =>
      rw [hk] at h
      dsimp only at h
      obtain rfl : y = b := Except.ok.inj h
      exact ⟨y, by simp [pfromBase, hyf, pfromBaseInner, hk]⟩
    | boolean =>
      rw [hk] at h
      dsimp only at h
      obtain rfl : y = b := Except.ok.inj h
      exact ⟨y, by simp [pfromBase, hyf, pfromBaseInner, hk]⟩
    | integer =>
      rw [hk] at h
      dsimp only at h
      obtain rfl : y = b := Except.ok.inj h
      exact ⟨y, by simp [pfromBase, hyf, pfromBaseInner, hk]⟩
    | float =>
      rw [hk] at h
      dsimp only at h
      obtain rfl : y = b := Except.ok.inj h
      exact ⟨y, by simp [pfromBase, hyf, pfromBaseInner, hk]⟩
    | datetime =>
      rw [hk] at h
      dsimp only at h
      obtain rfl : y = b := Except.ok.inj h
      exact ⟨y, by simp [pfromBase, hyf, pfromBaseInner, hk]⟩
    | blob =>
      rw [hk] at h
      dsimp only at h
      simp only [blobToBase, hc, Bool.false_eq_true, if_false] at h
      obtain rfl : y = b := Except.ok.inj h
      exact ⟨y, by simp [pfromBase, hyf, pfromBaseInner, hk, blobFromBase, hc]⟩
    | text =>
      rw [hk] at h
      dsimp only at h
      rcases y with _ | b2 | n2 | q2 | bs | s | d2 | d3 | t2 | xs2 | zb
      · simp [PyVal.isNone] at hyf
      · try dsimp only at h
        obtain rfl := Except.ok.inj h
        exact ⟨.none, by simp [pfromBase, PyVal.isNone, pfromBaseInner, hk]⟩
      · try dsimp only at h
        obtain rfl := Except.ok.inj h
        exact ⟨.none, by simp [pfromBase, PyVal.isNone, pfromBaseInner, hk]⟩
      · try dsimp only at h
        obtain rfl := Except.ok.inj h
        exact ⟨.none, by simp [pfromBase, PyVal.isNone, pfromBaseInner, hk]⟩
      · try dsimp only at h
        rcases hd : ext.utf8Decode bs with _ | s
        · rw [hd] at h
          exact absurd h (by simp)
        · rw [hd] at h
          try dsimp only at h
          obtain rfl : PyVal.unicode s = b := Except.ok.inj h
          exact ⟨.unicode s, by simp [pfromBase, PyVal.isNone, pfromBaseInner, hk]⟩
      · try dsimp only at h
        obtain rfl : PyVal.unicode s = b := Except.ok.inj h
        exact ⟨.unicode s, by simp [pfromBase, PyVal.isNone, pfromBaseInner, hk]⟩
      · try dsimp only at h
        obtain rfl := Except.ok.inj h
        exact ⟨.none, by simp [pfromBase, PyVal.isNone, pfromBaseInner, hk]⟩
      · try dsimp only at h
        obtain rfl := Except.ok.inj h
        exact ⟨.none, by simp [pfromBase, PyVal.isNone, pfromBaseInner, hk]⟩
      · try dsimp only at h
        obtain rfl := Except.ok.inj h
        exact ⟨.none, by simp [pfromBase, PyVal.isNone, pfromBaseInner, hk]⟩
      · try dsimp only at h
        obtain rfl := Except.ok.inj h
        exact ⟨.none, by simp [pfromBase, PyVal.isNone, pfromBaseInner, hk]⟩
      · try dsimp only at h
        obtain rfl := Except.ok.inj h
        exact ⟨.none, by simp [pfromBase, PyVal.isNone, pfromBaseInner, hk]⟩
    | string =>
      rw [hk] at h
      dsimp only at h
      rcases y with _ | b2 | n2 | q2 | bs | s | d2 | d3 | t2 | xs2 | zb
      · simp [PyVal.isNone] at hyf
      · try dsimp only at h
        obtain rfl := Except.ok.inj h
        exact ⟨.none, by simp [pfromBase, PyVal.isNone, pfromBaseInner, hk]⟩
      · try dsimp only at h
        obtain rfl := Except.ok.inj h
        exact ⟨.none, by simp [pfromBase, PyVal.isNone, pfromBaseInner, hk]⟩
      · try dsimp only at h
        obtain rfl := Except.ok.inj h
        exact ⟨.none, by simp [pfromBase, PyVal.isNone, pfromBaseInner, hk]⟩
      · try dsimp only at h
        rcases hd : ext.utf8Decode bs with _ | s
        · rw [hd] at h
          exact absurd h (by simp)
        · rw [hd] at h
          try dsimp only at h
          obtain rfl : PyVal.unicode s = b := Except.ok.inj h
          exact ⟨.unicode s, by simp [pfromBase, PyVal.isNone, pfromBaseInner, hk]⟩
      · try dsimp only at h
        obtain rfl : PyVal.unicode s = b := Except.ok.inj h
        exact ⟨.unicode s, by simp [pfromBase, PyVal.isNone, pfromBaseInner, hk]⟩
      · try dsimp only at h
        obtain rfl := Except.ok.inj h
        exact ⟨.none, by simp [pfromBase, PyVal.isNone, pfromBaseInner, hk]⟩
      · try dsimp only at h
        obtain rfl := Except.ok.inj h
        exact ⟨.none, by simp [pfromBase, PyVal.isNone, pfromBaseInner, hk]⟩
      · try dsimp only at h
        obtain rfl := Except.ok.inj h
        exact ⟨.none, by simp [pfromBase, PyVal.isNone, pfromBaseInner, hk]⟩
      · try dsimp only at h
        obtain rfl := Except.ok.inj h
        exact ⟨.none, by simp [pfromBase, PyVal.isNone, pfromBaseInner, hk]⟩
      · try dsimp only at h
        obtain rfl := Except.ok.inj h
        exact ⟨.none, by simp [pfromBase, PyVal.isNone, pfromBaseInner, hk]⟩
    | pickle =>
      rw [hk] at h
      dsimp only at h
      simp only [blobToBase, hc, Bool.false_eq_true, if_false] at h
      obtain rfl : PyVal.str (ext.pickleDumps y) = b := Except.ok.inj h
      obtain ⟨w, hw⟩ := hpk hk y
      exact ⟨w, by
        simp [pfromBase, PyVal.isNone, pfromBaseInner, hk, blobFromBase, hc, liftO, hw]⟩
    | json =>
      rw [hk] at h
      dsimp only at h
      cases hd : ext.jsonDumps y with
      | none =>
        rw [hd] at h
        exact absurd h (by simp)
      | some bs =>
        rw [hd] at h
        dsimp only at h
        simp only [blobToBase, hc, Bool.false_eq_true, if_false] at h
        obtain rfl : PyVal.str bs = b := Except.ok.inj h
        obtain ⟨w, hw⟩ := hjs hk bs y hd
        exact ⟨w, by
          simp [pfromBase, PyVal.isNone, pfromBaseInner, hk, blobFromBase, hc, liftO, hw]⟩
    | date =>
      rw [hk] at h
      dsimp only at h
      rcases y with _ | b2 | n2 | q2 | bs | s | d2 | d3 | t2 | xs2 | zb
      · simp [PyVal.isNone] at hyf
      · try dsimp only at h
        exact absurd h (by simp)
      · try dsimp only at h
        exact absurd h (by simp)
      · try dsimp only at h
        exact absurd h (by simp)
      · try dsimp only at h
        exact absurd h (by simp)
      · try dsimp only at h
        exact absurd h (by simp)
      · try dsimp only at h
        obtain rfl := Except.ok.inj h
        exact ⟨.date ⟨d2.year, d2.month, d2.day⟩,
          by simp [pfromBase, PyVal.isNone, pfromBaseInner, hk, PyDateTime.toDate]⟩
      · try dsimp only at h
        obtain rfl := Except.ok.inj h
        exact ⟨.date ⟨d3.year, d3.month, d3.day⟩,
          by simp [pfromBase, PyVal.isNone, pfromBaseInner, hk, PyDateTime.toDate]⟩
      · try dsimp only at h
        exact absurd h (by simp)
      · try dsimp only at h
        exact absurd h (by simp)
      · try dsimp only at h
        exact absurd h (by simp)
    | time =>
      rw [hk] at h
      dsimp only at h
      rcases y with _ | b2 | n2 | q2 | bs | s | d2 | d3 | t2 | xs2 | zb
      · simp [PyVal.isNone] at hyf
      · try dsimp only at h
        exact absurd h (by simp)
      · try dsimp only at h
        exact absurd h (by simp)
      · try dsimp only at h
        exact absurd h (by simp)
      · try dsimp only at h
        exact absurd h (by simp)
      · try dsimp only at h
        exact absurd h (by simp)
      · try dsimp only at h
        obtain rfl := Except.ok.inj h
        exact ⟨.time ⟨d2.hour, d2.minute, d2.second, d2.microsecond⟩,
          by simp [pfromBase, PyVal.isNone, pfromBaseInner, hk, PyDateTime.toTime]⟩
      · try dsimp only at h
        exact absurd h (by simp)
      · try dsimp only at h
        obtain rfl := Except.ok.inj h
        exact ⟨.time ⟨t2.hour, t2.minute, t2.second, t2.microsecond⟩,
          by simp [pfromBase, PyVal.isNone, pfromBaseInner, hk, PyDateTime.toTime]⟩
      · try dsimp only at h
        exact absurd h (by simp)
      · try dsimp only at h
        exact absurd h (by simp)

/-- A successful `__set__` of a sequence on a repeated property decomposes
into the two elementwise passes followed by the single insertion of the full
converted sequence. -/
theorem pset_repeated_ok_elim (p : Property) (ext : Ext) (e : Entity)
    (xs : List PyVal) (e2 : Entity) (hrep : p.repeated = true)
    (hset : pset p ext e (.list xs) = .ok e2) :
    ∃ ys bs, mapE (pvalidate p ext) xs = .ok ys ∧ mapE (ptoBase p ext) ys = .ok bs
      ∧ e2 = Entity.insert e p.name (.list bs) := by
  simp only [pset, hrep, if_true] at hset
  try dsimp only at hset
  cases h1 : mapE (pvalidate p ext) xs with
  | error err => rw [h1] at hset; exact absurd hset (by simp)
  | ok ys =>
    rw [h1] at hset
    try dsimp only at hset
    cases h2 : mapE (ptoBase p ext) ys with
    | error err => rw [h2] at hset; exact absurd hset (by simp)
    | ok bs =>
      rw [h2] at hset
      try dsimp only at hset
      exact ⟨ys, bs, rfl, h2, (Except.ok.inj hset).symm⟩

/-- Claim C9, counterexample: `BlobProperty(compressed=True, repeated=True)`
is an admissible configuration (its constructor succeeds: `indexed` is forced
false so the compressed-and-indexed guard passes), `__set__` accepts the
valid byte-string sequence `["ab"]` and stores the compressed bytes as a raw
string — and the subsequent `__get__` raises `AttributeError`, because
`BlobProperty._from_base_type` reads `value.z_val` on that raw stored string.
Set followed by get returns nothing at all here, refuting the claim in its
universal form. -/
theorem claim9_counterexample :
    (BlobProperty.initK .blob (some "b") true Option.none true false .none none
        none).bind (fun p => pset p ext0 [] (.list [.str [97, 98]]))
      = .ok [(some "b", PyVal.list [.str [98, 97]])]
    ∧ (BlobProperty.initK .blob (some "b") true Option.none true false .none none
        none).bind (fun p => pget p ext0 [(some "b", PyVal.list [.str [98, 97]])])
      = .error Err.attributeError :=
  ⟨rfl, rfl⟩

/-- Claim C9, amended: for every repeated property with compression off (the
compressed blob family is excluded — there `from_base_type` unwraps a driver
wrapper that a freshly stored raw value lacks, so reading back fails with
AttributeError) and, for the codec variants, granted the library contract
that `loads` succeeds on `dumps` output: every input sequence that `set`
accepts — including the empty sequence — is returned by `get` with exactly
the same element count, the `i`-th returned element being the read-back of
the `i`-th input element (order preserved). -/
theorem claim9_amended (p : Property) (ext : Ext) (e : Entity)
    (xs : List PyVal) (e2 : Entity)
    (hrep : p.repeated = true) (hc : p.compressed = false)
    (hpk : p.kind = .pickle → ∀ v, ∃ w, ext.pickleLoads (ext.pickleDumps v) = some w)
    (hjs : p.kind = .json →
      ∀ bs v, ext.jsonDumps v = some bs → ∃ w, ext.jsonLoads bs = some w)
    (hset : pset p ext e (.list xs) = .ok e2) :
    ∃ vs, pget p ext e2 = .ok (.list vs, e2)
      ∧ vs.length = xs.length
      ∧ (∀ i, i < xs.length →
          ∃ y b, pvalidate p ext (xs.getD i .none) = .ok y
            ∧ ptoBase p ext y = .ok b ∧ pfromBase p ext b = .ok (vs.getD i .none)) := by
  obtain ⟨ys, bs, h1, h2, rfl⟩ := pset_repeated_ok_elim p ext e xs e2 hrep hset
  have hall : ∀ b ∈ bs, ∃ u, pfromBase p ext b = .ok u := by
    intro b hb
    obtain ⟨y, _, hy⟩ := mapE_ok_mem _ _ _ h2 b hb
    exact toBase_fromBase_ok p ext hc hpk hjs y b hy
  obtain ⟨vs, h3⟩ := mapE_ok_of_forall _ _ hall
  refine ⟨vs, ?_, ?_, ?_⟩
  · simp only [pget, hrep, if_true, Entity.lookup_insert_self]
    try dsimp only
    rw [h3]
  · rw [mapE_ok_length _ _ _ h3, mapE_ok_length _ _ _ h2, mapE_ok_length _ _ _ h1]
  · intro i hi
    have hiy : i < ys.length := by rw [mapE_ok_length _ _ _ h1]; exact hi
    have hib : i < bs.length := by rw [mapE_ok_length _ _ _ h2]; exact hiy
    exact ⟨ys.getD i .none, bs.getD i .none,
      mapE_ok_getD _ _ _ h1 i hi,
      mapE_ok_getD _ _ _ h2 i hiy,
      mapE_ok_getD _ _ _ h3 i hib⟩

/-- Claim C9, witness for the amended theorem: a repeated uncompressed
`IntegerProperty` whose `set` accepted `[1, 2]` reads back a sequence of
length 2 in order, and one whose `set` accepted `[]` reads back the empty
sequence. -/
theorem claim9_amended_witness :
    (∃ vs, pget (Property.init .integer (some "r") true true false .none none none)
          ext0 [(some "r", PyVal.list [.int 1, .int 2])]
        = .ok (.list vs, [(some "r", PyVal.list [.int 1, .int 2])])
      ∧ vs.length = 2)
    ∧ (∃ vs, pget (Property.init .integer (some "e") true true false .none none none)
          ext0 [(some "e", PyVal.list [])]
        = .ok (.list vs, [(some "e", PyVal.list [])])
      ∧ vs.length = 0) := by
  constructor
  · obtain ⟨vs, hget, hlen, _⟩ :=
      claim9_amended
        (Property.init .integer (some "r") true true false .none none none)
        ext0 [] [.int 1, .int 2] [(some "r", PyVal.list [.int 1, .int 2])]
        rfl rfl (fun hcontra => absurd hcontra (by decide))
        (fun hcontra => absurd hcontra (by decide)) rfl
    exact ⟨vs, hget, hlen⟩
  · obtain ⟨vs, hget, hlen, _⟩ :=
      claim9_amended
        (Property.init .integer (some "e") true true false .none none none)
        ext0 [] [] [(some "e", PyVal.list [])]
        rfl rfl (fun hcontra => absurd hcontra (by decide))
        (fun hcontra => absurd hcontra (by decide)) rfl
    exact ⟨vs, hget, hlen⟩

/-- Claim C10: `__delete__` removes the binding, after which `__get__`
behaves exactly like a first access on a never-set record: the user value it
produces (or the failure it raises) is the same as on an empty entity; for a
scalar property whose default validates, converts and reads back, it
materializes the default into the mapping and returns its read-back; for a
repeated property with a falsy default it materializes and returns the empty
sequence. -/
theorem claim10_delete_then_get (p : Property) (ext : Ext) (e : Entity) :
    Entity.lookup (pdelete p e) p.name = Option.none
    ∧ (pget p ext (pdelete p e)).map Prod.fst = (pget p ext []).map Prod.fst
    ∧ (p.repeated = false → ∀ y b u,
        pvalidate p ext p.default = .ok y → ptoBase p ext y = .ok b →
        pfromBase p ext b = .ok u →
        pget p ext (pdelete p e) = .ok (u, Entity.insert (pdelete p e) p.name b))
    ∧ (p.repeated = true → p.default.truthy = false →
        pget p ext (pdelete p e)
          = .ok (.list [], Entity.insert (pdelete p e) p.name (.list []))) := by
  refine ⟨Entity.lookup_eraseKey_self e p.name, ?_, ?_, ?_⟩
  · exact pget_fst_congr p ext (pdelete p e) []
      (Entity.lookup_eraseKey_self e p.name)
  · intro hrep y b u hy hb hu
    have hl : Entity.lookup (pdelete p e) p.name = Option.none :=
      Entity.lookup_eraseKey_self e p.name
    have hset : pset p ext (pdelete p e) p.default
        = .ok (Entity.insert (pdelete p e) p.name b) := by
      simp only [pset, hrep, Bool.false_eq_true, if_false]
      rw [hy]
      dsimp only
      rw [hb]
    simp only [pget, hrep, Bool.false_eq_true, if_false, hl]
    try dsimp only
    rw [hset]
    dsimp only
    simp only [Entity.lookup_insert_self]
    rw [hu]
  · intro hrep hdef
    have hl : Entity.lookup (pdelete p e) p.name = Option.none :=
      Entity.lookup_eraseKey_self e p.name
    have hset : pset p ext (pdelete p e) (.list [])
        = .ok (Entity.insert (pdelete p e) p.name (.list [])) := by
      simp only [pset, hrep, if_true]
      dsimp only [mapE]
    simp only [pget, hrep, if_true, hl, hdef]
    try dsimp only
    simp only [Bool.false_eq_true, if_false]
    rw [hset]
    dsimp only
    simp only [Entity.lookup_insert_self]
    dsimp only [mapE]

/-- Claim C10, witness: deleting an `IntegerProperty` (default `7`) binding
and reading again re-materializes the default and returns it. -/
theorem claim10_delete_then_get_witness :
    pget (Property.init .integer (some "n") true false false (.int 7) none none) ext0
        (pdelete (Property.init .integer (some "n") true false false (.int 7) none none)
          [(some "n", PyVal.int 3)])
      = .ok (.int 7,
          Entity.insert
            (pdelete (Property.init .integer (some "n") true false false (.int 7) none none)
              [(some "n", PyVal.int 3)])
            (some "n") (.int 7)) :=
  (claim10_delete_then_get
    (Property.init .integer (some "n") true false false (.int 7) none none) ext0
    [(some "n", PyVal.int 3)]).2.2.1 rfl (.int 7) (.int 7) (.int 7) rfl rfl rfl

end GCloudOrm
